import Mathlib

/-!
Verification of the CAN-bus decision-tree toolchain: the 64-bit node codec with
per-feature fixed-point quantization (`convert_bin.py`,
`TreeToBinaryMemConverter`) and the raw-message feature extractor
(`convert_sample.py`, `CANFeatureConverter`).

Modelling conventions:
* Python arbitrary-precision integers are `Int` (or `Nat` where the source
  value is provably non-negative); real/float threshold values are modelled as
  exact rationals `ℚ`.
* Python's built-in `round` is round-half-to-even (banker's rounding),
  modelled by `pythonRound`.
* Python's `x & (2^k - 1)` on an arbitrary (possibly negative) integer is the
  mathematical `x % 2^k`, modelled by `maskToNat`.
* Python strings are modelled as `List Char`; an uncaught exception is the
  `none` case of an `Option` result.
-/

namespace CanTree

/-- Python's `round`: round half to even (banker's rounding) on an exact
rational, returning an integer. -/
def pythonRound (q : ℚ) : ℤ :=
  if q - ⌊q⌋ < 1/2 then ⌊q⌋
  else if 1/2 < q - ⌊q⌋ then ⌊q⌋ + 1
  else if ⌊q⌋ % 2 = 0 then ⌊q⌋ else ⌊q⌋ + 1

/-- The per-feature fixed-point fraction-bit table of
`TreeToBinaryMemConverter.float_to_fixed_point`: Q11.16, Q4.23, Q8.19, Q8.19,
Q11.16, Q0.27, with a balanced Q14.13 default for any other feature id. -/
def frac_bits_of (feature_id : ℤ) : ℕ :=
  if feature_id = 0 then 16
  else if feature_id = 1 then 23
  else if feature_id = 2 then 19
  else if feature_id = 3 then 19
  else if feature_id = 4 then 16
  else if feature_id = 5 then 27
  else 13

/-- Model of `TreeToBinaryMemConverter.float_to_fixed_point`: scale by `2^frac_bits`,
round, clamp into `[0, 2^27 - 1]`, and mask to 27 bits (the mask `& 0x7FFFFFF`
on the clamped non-negative value is `% 2^27`). -/
def float_to_fixed_point (value : ℚ) (feature_id : ℤ) : ℤ :=
  let frac_bits := frac_bits_of feature_id
  let scaled := pythonRound (value * 2 ^ frac_bits)
  let clamped := max 0 (min ((2:ℤ) ^ 27 - 1) scaled)
  clamped % 2 ^ 27

/-- The fraction-bit table as the specification states it: 16 for feature 0,
23 for feature 1, 19 for features 2 and 3, 16 for feature 4, 27 for feature 5,
and the balanced default 13 for any feature id outside 0..5. -/
def fracBitsSpec (feature_id : ℤ) : ℕ :=
  if feature_id = 0 then 16
  else if feature_id = 1 then 23
  else if feature_id = 2 ∨ feature_id = 3 then 19
  else if feature_id = 4 then 16
  else if feature_id = 5 then 27
  else 13

/-- The quantizer as the specification states it:
`clamp(round(value * 2^fraction_bits), 0, 2^27 - 1)` masked to 27 bits. -/
def quantizeSpec (value : ℚ) (feature_id : ℤ) : ℤ :=
  (max 0 (min ((2:ℤ) ^ 27 - 1) (pythonRound (value * 2 ^ fracBitsSpec feature_id)))) % 2 ^ 27

/-- One row of the tree table, as read by
`TreeToBinaryMemConverter.node_to_binary`: `Node`, `Feature` (a symbolic
string code), `Threshold`, `Left_Child`, `Right_Child`, `Prediction`. -/
structure TreeRow where
  node_id : ℤ
  feature : String
  threshold : ℚ
  left_child : ℤ
  right_child : ℤ
  prediction : ℤ
deriving DecidableEq

/-- The converter's `feature_map` dictionary lookup with default 0:
symbolic codes `"00"`..`"05"` map to ids 0..5, anything else to 0. -/
def feature_map (f : String) : ℕ :=
  if f = "00" then 0
  else if f = "01" then 1
  else if f = "02" then 2
  else if f = "03" then 3
  else if f = "04" then 4
  else if f = "05" then 5
  else 0

/-- The encoder's leaf test: `feature == '-1' or (left_child == 0 and
right_child == 0)`. -/
def isLeafRow (row : TreeRow) : Prop :=
  row.feature = "-1" ∨ (row.left_child = 0 ∧ row.right_child = 0)

instance (row : TreeRow) : Decidable (isLeafRow row) := by
  unfold isLeafRow; infer_instance

/-- Python's `x & (2^k - 1)` on an arbitrary (possibly negative) integer:
the mathematical remainder `x % 2^k`, as a natural number. -/
def maskToNat (x : ℤ) (k : ℕ) : ℕ := (x % 2 ^ k).toNat

/-- The `node_type` value as computed by `node_to_binary`: for a leaf the prediction
overlay (`1` if the prediction equals 1, else `0`), for an internal node `0`. -/
def encNodeType (row : TreeRow) : ℕ :=
  if isLeafRow row then (if row.prediction = 1 then 1 else 0) else 0

/-- The `feature_id` value as computed by `node_to_binary`: `0` for a leaf, the
`feature_map` lookup for an internal node. -/
def encFeatureId (row : TreeRow) : ℕ :=
  if isLeafRow row then 0 else feature_map row.feature

/-- The `threshold_fixed` value as computed by `node_to_binary`: `0` for a leaf, the
per-feature quantization of the threshold for an internal node. -/
def encThreshold (row : TreeRow) : ℤ :=
  if isLeafRow row then 0 else float_to_fixed_point row.threshold (encFeatureId row)

/-- Model of `TreeToBinaryMemConverter.node_to_binary`: pack the six masked fields into
one 64-bit word by shifted bitwise or —
`[node_id(8) | feature_id(3) | threshold(27) | right(8) | left(8) | type(8) | reserved(2)]`. -/
def node_to_binary (row : TreeRow) : ℕ :=
  (maskToNat row.node_id 8) <<< 56 |||
  (encFeatureId row &&& 7) <<< 53 |||
  (maskToNat (encThreshold row) 27) <<< 26 |||
  (maskToNat row.right_child 8) <<< 18 |||
  (maskToNat row.left_child 8) <<< 10 |||
  (encNodeType row &&& 255) <<< 2

/-- The record returned by `TreeToBinaryMemConverter.decode_node`; the
`'Leaf'`/`'Internal'` string is modelled by the Boolean `is_leaf`, and the
Python `None` prediction of internal nodes by `Option`. -/
structure DecodedNode where
  node_id : ℕ
  feature_id : ℕ
  threshold_raw : ℕ
  right_child : ℕ
  left_child : ℕ
  node_type_value : ℕ
  is_leaf : Bool
  prediction : Option ℕ
  reserved : ℕ
deriving DecidableEq

/-- Model of `TreeToBinaryMemConverter.decode_node`: unshift and mask each field, and
classify as leaf when `node_type == 1` or both children are zero. -/
def decode_node (w : ℕ) : DecodedNode :=
  let node_id := (w >>> 56) &&& 255
  let feature_id := (w >>> 53) &&& 7
  let threshold_raw := (w >>> 26) &&& 134217727
  let right_child := (w >>> 18) &&& 255
  let left_child := (w >>> 10) &&& 255
  let node_type_value := (w >>> 2) &&& 255
  let reserved := w &&& 3
  let is_leaf : Bool := node_type_value == 1 || (left_child == 0 && right_child == 0)
  { node_id := node_id, feature_id := feature_id, threshold_raw := threshold_raw,
    right_child := right_child, left_child := left_child,
    node_type_value := node_type_value, is_leaf := is_leaf,
    prediction := if is_leaf then some node_type_value else none,
    reserved := reserved }

/-!
The feature extractor (`convert_sample.py`, `CANFeatureConverter`): Python
strings are modelled as `List Char`; `str.replace('0x','')`,
`str.replace(' ','')` and `str.strip()` are modelled below; `int(s, 16)` is
modelled by `pythonIntHex` (ASCII whitespace, an optional sign, an optional
`0x`/`0X` base marker, then hex digits with single underscores between
digits); an uncaught `ValueError` is the `none` result.
-/

/-- The ASCII whitespace characters stripped by Python's `str.strip` and
`int`. -/
def isPySpace (c : Char) : Bool :=
  c == ' ' || c == '\t' || c == '\n' || c == '\r' || c == '\x0b' || c == '\x0c'

/-- Python's `str.strip()`: drop whitespace from both ends. -/
def stripSpaces (l : List Char) : List Char :=
  ((l.dropWhile isPySpace).reverse.dropWhile isPySpace).reverse

/-- Python's `str.replace('0x', '')`: remove every (non-overlapping, left-to-right)
occurrence of the two-character substring `0x`. -/
def remove0x : List Char → List Char
  | [] => []
  | [c] => [c]
  | c1 :: c2 :: rest =>
    if c1 = '0' ∧ c2 = 'x' then remove0x rest else c1 :: remove0x (c2 :: rest)

/-- Python's `str.replace('0X', '')`: remove every occurrence of `0X`. -/
def remove0X : List Char → List Char
  | [] => []
  | [c] => [c]
  | c1 :: c2 :: rest =>
    if c1 = '0' ∧ c2 = 'X' then remove0X rest else c1 :: remove0X (c2 :: rest)

/-- Python's `str.replace(' ', '')`: remove every space character. -/
def removeSpaces (l : List Char) : List Char := l.filter (fun c => c != ' ')

/-- The value of one hex digit character, if it is one. -/
def hexDigit? (c : Char) : Option ℕ :=
  if '0' ≤ c ∧ c ≤ '9' then some (c.toNat - '0'.toNat)
  else if 'a' ≤ c ∧ c ≤ 'f' then some (c.toNat - 'a'.toNat + 10)
  else if 'A' ≤ c ∧ c ≤ 'F' then some (c.toNat - 'A'.toNat + 10)
  else none

/-- Continue parsing hex digits after at least one digit has been read:
an underscore is allowed only between digits, never doubled or trailing. -/
def hexDigitsRest (acc : ℕ) : List Char → Option ℕ
  | [] => some acc
  | c :: rest =>
    if c = '_' then
      match rest with
      | [] => none
      | c2 :: rest2 =>
        match hexDigit? c2 with
        | some v => hexDigitsRest (16 * acc + v) rest2
        | none => none
    else
      match hexDigit? c with
      | some v => hexDigitsRest (16 * acc + v) rest
      | none => none

/-- Parse a nonempty run of hex digits (single underscores allowed between
digits). -/
def hexDigitsParse : List Char → Option ℕ
  | [] => none
  | c :: rest =>
    match hexDigit? c with
    | some v => hexDigitsRest v rest
    | none => none

/-- The unsigned part of `int(s, 16)` after whitespace and sign: an optional
`0x`/`0X` marker (with one optional underscore right after it), then hex
digits. -/
def pythonIntHexBody (l : List Char) : Option ℕ :=
  match l with
  | '0' :: c :: rest =>
    if c = 'x' ∨ c = 'X' then
      match rest with
      | '_' :: rest2 => hexDigitsParse rest2
      | _ => hexDigitsParse rest
    else hexDigitsParse l
  | _ => hexDigitsParse l

/-- Python's `int(s, 16)`: surrounding whitespace, an optional sign, an
optional `0x`/`0X` marker, hex digits; `none` models the `ValueError`. -/
def pythonIntHex (l : List Char) : Option ℤ :=
  match stripSpaces l with
  | '+' :: r => (pythonIntHexBody r).map fun n => (n : ℤ)
  | '-' :: r => (pythonIntHexBody r).map fun n => -(n : ℤ)
  | r => (pythonIntHexBody r).map fun n => (n : ℤ)

/-- The arbitration-id cleanup of `convert_single`:
`.replace('0x','').replace('0X','').strip()`. -/
def cleanArb (l : List Char) : List Char := stripSpaces (remove0X (remove0x l))

/-- The data-field cleanup of `convert_single`:
`.replace('0x','').replace('0X','').replace(' ','').strip()`. -/
def cleanData (l : List Char) : List Char :=
  stripSpaces (removeSpaces (remove0X (remove0x l)))

/-- The textual arbitration-id parse of `convert_single`:
`int(arb_id_clean, 16)` after the cleanup. -/
def arb_id_of_text (l : List Char) : Option ℤ := pythonIntHex (cleanArb l)

/-- The non-overlapping two-character chunks scanned by the `byte_sum` loop
(`range(0, len, 2)` with `i+2 <= len`); a trailing lone character is
dropped. -/
def pairChunks : List Char → List (List Char)
  | c1 :: c2 :: rest => [c1, c2] :: pairChunks rest
  | _ => []

/-- The `byte_sum` computation: sum every two-character chunk parsed as hex;
if any chunk fails to parse, the `except` handler resets the sum to 0. -/
def byteSumOf (l : List Char) : ℤ :=
  match (pairChunks l).mapM pythonIntHex with
  | some vs => vs.sum
  | none => 0

/-- The six engineered features returned by `convert_single`. -/
structure Features where
  arb_id_dec : ℤ
  data_length : ℕ
  first_byte : ℤ
  last_byte : ℤ
  byte_sum : ℤ
  time_delta : ℚ
deriving DecidableEq

/-- Python's `max(x, y)`: the second argument only when it is strictly
larger. -/
def pymax (x y : ℚ) : ℚ := if x < y then y else x

/-- Python's `min(x, y)`: the second argument only when it is strictly
smaller. -/
def pymin (x y : ℚ) : ℚ := if y < x then y else x

/-- The `time_delta` update of `convert_single`: with a timestamp and a
previous one, `min(max(ts - last, 0.0), 1.0)` and the new last timestamp;
with a timestamp but no previous one, `0.0`; with no timestamp, `0.0` and
the previous timestamp untouched. -/
def time_delta_step (last : Option ℚ) (ts : Option ℚ) : ℚ × Option ℚ :=
  match ts with
  | some t =>
    match last with
    | some prev => (pymin (pymax (t - prev) 0) 1, some t)
    | none => (0, some t)
  | none => (0, last)

/-- The data-field features of `convert_single`: length of the cleaned
string, first and last byte (each `0` when fewer than 2 characters remain,
otherwise parsed — an unparseable chunk raises), and `byte_sum`. -/
def dataFeatures (data : List Char) : Option (ℕ × ℤ × ℤ × ℤ) :=
  let ds := cleanData data
  match (if 2 ≤ ds.length then pythonIntHex (ds.take 2) else some 0) with
  | none => none
  | some fb =>
    match (if 2 ≤ ds.length then pythonIntHex (ds.drop (ds.length - 2)) else some 0) with
    | none => none
    | some lb => some (ds.length, fb, lb, byteSumOf ds)

/-- Model of `CANFeatureConverter.convert_single`: parse the arbitration id (textual
or numeric), derive the data-field features, compute `time_delta`, and
return the feature record together with the updated `last_timestamp`;
`none` models an uncaught exception. -/
def convert_single (arb : String ⊕ ℤ) (data : List Char) (ts last : Option ℚ) :
    Option (Features × Option ℚ) :=
  match (match arb with
    | Sum.inl s => arb_id_of_text s.toList
    | Sum.inr n => some n) with
  | none => none
  | some a =>
    match dataFeatures data with
    | none => none
    | some (dl, fb, lb, bs) =>
      let td := time_delta_step last ts
      some ({ arb_id_dec := a, data_length := dl, first_byte := fb,
              last_byte := lb, byte_sum := bs, time_delta := td.1 }, td.2)

/-- The accumulated value of a run of hex digit characters. -/
def hexVal (l : List Char) : ℕ :=
  l.foldl (fun a c => 16 * a + (hexDigit? c).getD 0) 0

/-- Drop one leading `0x`/`0X` marker, if present. -/
def dropHexMark (t : List Char) : List Char :=
  match t with
  | '0' :: 'x' :: r => r
  | '0' :: 'X' :: r => r
  | _ => t

/-- The arbitration-id parse as claim C7 describes it: strip surrounding
whitespace and one optional `0x`/`0X` marker, then parse the remainder as a
base-16 integer, failing when the remainder is not valid hexadecimal. -/
def arbIdSpec (l : List Char) : Option ℤ :=
  let t := dropHexMark (stripSpaces l)
  if !t.isEmpty && t.all (fun c => (hexDigit? c).isSome) then some ((hexVal t : ℤ))
  else none

/-- Banker's rounding lands on the floor or the ceiling of its argument. -/
lemma pythonRound_mem (q : ℚ) : pythonRound q = ⌊q⌋ ∨ pythonRound q = ⌊q⌋ + 1 := by
  unfold pythonRound
  split_ifs <;> simp

/-- Monotonicity of banker's rounding. -/
lemma pythonRound_mono {q1 q2 : ℚ} (h : q1 ≤ q2) : pythonRound q1 ≤ pythonRound q2 := by
  rcases lt_or_eq_of_le (Int.floor_le_floor h) with hf | hf
  · rcases pythonRound_mem q1 with h1 | h1 <;> rcases pythonRound_mem q2 with h2 | h2 <;>
      rw [h1, h2] <;> omega
  · unfold pythonRound
    rw [hf]
    have hsub : q1 - (⌊q2⌋ : ℚ) ≤ q2 - (⌊q2⌋ : ℚ) := by linarith
    split_ifs <;> first | omega | linarith

/-- If the argument is negative, banker's rounding gives a non-positive
integer. -/
lemma pythonRound_nonpos {q : ℚ} (h : q < 0) : pythonRound q ≤ 0 := by
  have hfl : ⌊q⌋ ≤ -1 := by
    have : ⌊q⌋ < 0 := Int.floor_lt.2 (by simpa using h)
    omega
  rcases pythonRound_mem q with h1 | h1 <;> omega

/-- The quantizer's result is a 27-bit unsigned value. -/
lemma float_to_fixed_point_range (value : ℚ) (feature_id : ℤ) :
    0 ≤ float_to_fixed_point value feature_id ∧
      float_to_fixed_point value feature_id < 2 ^ 27 := by
  unfold float_to_fixed_point
  constructor
  · exact Int.emod_nonneg _ (by norm_num)
  · exact Int.emod_lt_of_pos _ (by norm_num)

/-- The clamp step makes the final 27-bit mask a no-op. -/
lemma float_to_fixed_point_eq_clamp (value : ℚ) (feature_id : ℤ) :
    float_to_fixed_point value feature_id =
      max 0 (min ((2:ℤ) ^ 27 - 1) (pythonRound (value * 2 ^ frac_bits_of feature_id))) := by
  unfold float_to_fixed_point
  set s := pythonRound (value * 2 ^ frac_bits_of feature_id) with hs
  have h1 : (0:ℤ) ≤ max 0 (min ((2:ℤ) ^ 27 - 1) s) := le_max_left _ _
  have h2 : max 0 (min ((2:ℤ) ^ 27 - 1) s) < 2 ^ 27 := by
    have : min ((2:ℤ) ^ 27 - 1) s ≤ (2:ℤ) ^ 27 - 1 := min_le_left _ _
    omega
  exact Int.emod_eq_of_lt h1 h2

/-- The source's per-feature if-chain computes the specification's
fraction-bit table. -/
lemma frac_bits_of_eq_spec (feature_id : ℤ) :
    frac_bits_of feature_id = fracBitsSpec feature_id := by
  unfold frac_bits_of fracBitsSpec
  split_ifs <;> omega

/-- C3: for every value and feature id, `float_to_fixed_point` computes
exactly `clamp(round(value * 2^fraction_bits), 0, 2^27 - 1)` masked to
27 bits, with fraction bits 16/23/19/19/16/27 for features 0..5 and the
balanced default 13 otherwise. -/
theorem claim_C3_quantize_matches_spec (value : ℚ) (feature_id : ℤ) :
    float_to_fixed_point value feature_id = quantizeSpec value feature_id := by
  unfold float_to_fixed_point quantizeSpec
  rw [frac_bits_of_eq_spec]

/-- C4: quantization saturates silently — whenever the scaled rounding
exceeds `2^27 - 1` the result is exactly `2^27 - 1`, and every negative
input value yields exactly `0`. -/
theorem claim_C4_quantize_saturates (value : ℚ) (feature_id : ℤ) :
    (value < 0 → float_to_fixed_point value feature_id = 0) ∧
      ((2:ℤ) ^ 27 - 1 < pythonRound (value * 2 ^ frac_bits_of feature_id) →
        float_to_fixed_point value feature_id = (2:ℤ) ^ 27 - 1) := by
  rw [float_to_fixed_point_eq_clamp]
  set s := pythonRound (value * 2 ^ frac_bits_of feature_id) with hs
  constructor
  · intro hneg
    have hscaled : s ≤ 0 := by
      rw [hs]
      exact pythonRound_nonpos
        (mul_neg_of_neg_of_pos hneg (by positivity))
    omega
  · intro hbig
    omega

/-- Closed instance of C4: quantizing `-3` for feature 2 yields `0`, and
quantizing `2048` for feature 0 (scaled rounding `2048 * 2^16 = 2^27`)
saturates to `2^27 - 1`. -/
theorem claim_C4_witness :
    float_to_fixed_point (-3) 2 = 0 ∧
      float_to_fixed_point 2048 0 = (2:ℤ) ^ 27 - 1 :=
  ⟨(claim_C4_quantize_saturates (-3) 2).1 (by norm_num),
    (claim_C4_quantize_saturates 2048 0).2 (by norm_num [pythonRound, frac_bits_of])⟩

/-- C5: for a fixed feature id, quantization is non-decreasing in its input
value. -/
theorem claim_C5_quantize_mono (v1 v2 : ℚ) (feature_id : ℤ) (h : v1 ≤ v2) :
    float_to_fixed_point v1 feature_id ≤ float_to_fixed_point v2 feature_id := by
  rw [float_to_fixed_point_eq_clamp, float_to_fixed_point_eq_clamp]
  have hs : pythonRound (v1 * 2 ^ frac_bits_of feature_id) ≤
      pythonRound (v2 * 2 ^ frac_bits_of feature_id) :=
    pythonRound_mono (mul_le_mul_of_nonneg_right h (by positivity))
  omega

/-- Closed instance of C5 at `0 ≤ 1` for feature 5. -/
theorem claim_C5_witness :
    float_to_fixed_point 0 5 ≤ float_to_fixed_point 1 5 :=
  claim_C5_quantize_mono 0 1 5 (by norm_num)

lemma maskToNat_lt (x : ℤ) (k : ℕ) : maskToNat x k < 2 ^ k := by
  unfold maskToNat
  have hpos : (0:ℤ) < 2 ^ k := by positivity
  have h1 : 0 ≤ x % 2 ^ k := Int.emod_nonneg _ (ne_of_gt hpos)
  have h2 : x % 2 ^ k < 2 ^ k := Int.emod_lt_of_pos _ hpos
  have h3 : ((x % 2 ^ k).toNat : ℤ) < (2:ℤ) ^ k := by
    rw [Int.toNat_of_nonneg h1]; exact h2
  exact_mod_cast h3

/-- Masking is the identity on values already in range. -/
lemma maskToNat_eq_of_range {x : ℤ} (k : ℕ) (h0 : 0 ≤ x) (h1 : x < 2 ^ k) :
    (maskToNat x k : ℤ) = x := by
  unfold maskToNat
  rw [Int.emod_eq_of_lt h0 h1, Int.toNat_of_nonneg h0]

/-- Bitwise or of a high shifted field with a disjoint low field is addition. -/
lemma or_split {x y : ℕ} (i m : ℕ) (hx : x = 2 ^ i * m) (hy : y < 2 ^ i) :
    x ||| y = x + y := by
  subst hx
  exact (Nat.mul_add_lt_is_or hy m).symm

/-- The packed word as a plain sum: the six fields occupy disjoint bit
ranges, so the shifted bitwise ors add up. -/
lemma pack_eq_sum (a b c d e f : ℕ) (_ha : a < 256) (hb : b < 8)
    (hc : c < 134217728) (hd : d < 256) (he : e < 256) (hf : f < 256) :
    a <<< 56 ||| b <<< 53 ||| c <<< 26 ||| d <<< 18 ||| e <<< 10 ||| f <<< 2 =
      a * 2 ^ 56 + b * 2 ^ 53 + c * 2 ^ 26 + d * 2 ^ 18 + e * 2 ^ 10 + f * 2 ^ 2 := by
  simp only [Nat.shiftLeft_eq]
  have s1 : a * 2 ^ 56 ||| b * 2 ^ 53 = a * 2 ^ 56 + b * 2 ^ 53 :=
    or_split 56 a (by ring) (by norm_num; omega)
  have s2 : a * 2 ^ 56 + b * 2 ^ 53 ||| c * 2 ^ 26 =
      a * 2 ^ 56 + b * 2 ^ 53 + c * 2 ^ 26 :=
    or_split 53 (2 ^ 3 * a + b) (by ring) (by norm_num; omega)
  have s3 : a * 2 ^ 56 + b * 2 ^ 53 + c * 2 ^ 26 ||| d * 2 ^ 18 =
      a * 2 ^ 56 + b * 2 ^ 53 + c * 2 ^ 26 + d * 2 ^ 18 :=
    or_split 26 (2 ^ 30 * a + 2 ^ 27 * b + c) (by ring) (by norm_num; omega)
  have s4 : a * 2 ^ 56 + b * 2 ^ 53 + c * 2 ^ 26 + d * 2 ^ 18 ||| e * 2 ^ 10 =
      a * 2 ^ 56 + b * 2 ^ 53 + c * 2 ^ 26 + d * 2 ^ 18 + e * 2 ^ 10 :=
    or_split 18 (2 ^ 38 * a + 2 ^ 35 * b + 2 ^ 8 * c + d) (by ring) (by norm_num; omega)
  have s5 : a * 2 ^ 56 + b * 2 ^ 53 + c * 2 ^ 26 + d * 2 ^ 18 + e * 2 ^ 10 ||| f * 2 ^ 2 =
      a * 2 ^ 56 + b * 2 ^ 53 + c * 2 ^ 26 + d * 2 ^ 18 + e * 2 ^ 10 + f * 2 ^ 2 :=
    or_split 10 (2 ^ 46 * a + 2 ^ 43 * b + 2 ^ 16 * c + 2 ^ 8 * d + e) (by ring)
      (by norm_num; omega)
  rw [s1, s2, s3, s4, s5]

/-- Decoding a word given as a disjoint six-field sum recovers each field. -/
lemma decode_node_fields (w a b c d e f : ℕ) (ha : a < 256) (hb : b < 8)
    (hc : c < 134217728) (hd : d < 256) (he : e < 256) (hf : f < 256)
    (hw : w = a * 2 ^ 56 + b * 2 ^ 53 + c * 2 ^ 26 + d * 2 ^ 18 + e * 2 ^ 10 + f * 2 ^ 2) :
    decode_node w =
      { node_id := a, feature_id := b, threshold_raw := c, right_child := d,
        left_child := e, node_type_value := f,
        is_leaf := (f == 1) || (e == 0 && d == 0),
        prediction := if (f == 1) || (e == 0 && d == 0) then some f else none,
        reserved := 0 } := by
  subst hw
  have hnid : (a * 2 ^ 56 + b * 2 ^ 53 + c * 2 ^ 26 + d * 2 ^ 18 + e * 2 ^ 10 + f * 2 ^ 2)
      >>> 56 &&& 255 = a := by
    rw [Nat.shiftRight_eq_div_pow, show (255:ℕ) = 2 ^ 8 - 1 from rfl,
      Nat.and_pow_two_sub_one_eq_mod]
    norm_num
    omega
  have hfid : (a * 2 ^ 56 + b * 2 ^ 53 + c * 2 ^ 26 + d * 2 ^ 18 + e * 2 ^ 10 + f * 2 ^ 2)
      >>> 53 &&& 7 = b := by
    rw [Nat.shiftRight_eq_div_pow, show (7:ℕ) = 2 ^ 3 - 1 from rfl,
      Nat.and_pow_two_sub_one_eq_mod]
    norm_num
    omega
  have hthr : (a * 2 ^ 56 + b * 2 ^ 53 + c * 2 ^ 26 + d * 2 ^ 18 + e * 2 ^ 10 + f * 2 ^ 2)
      >>> 26 &&& 134217727 = c := by
    rw [Nat.shiftRight_eq_div_pow, show (134217727:ℕ) = 2 ^ 27 - 1 from rfl,
      Nat.and_pow_two_sub_one_eq_mod]
    norm_num
    omega
  have hr : (a * 2 ^ 56 + b * 2 ^ 53 + c * 2 ^ 26 + d * 2 ^ 18 + e * 2 ^ 10 + f * 2 ^ 2)
      >>> 18 &&& 255 = d := by
    rw [Nat.shiftRight_eq_div_pow, show (255:ℕ) = 2 ^ 8 - 1 from rfl,
      Nat.and_pow_two_sub_one_eq_mod]
    norm_num
    omega
  have hl : (a * 2 ^ 56 + b * 2 ^ 53 + c * 2 ^ 26 + d * 2 ^ 18 + e * 2 ^ 10 + f * 2 ^ 2)
      >>> 10 &&& 255 = e := by
    rw [Nat.shiftRight_eq_div_pow, show (255:ℕ) = 2 ^ 8 - 1 from rfl,
      Nat.and_pow_two_sub_one_eq_mod]
    norm_num
    omega
  have hnt : (a * 2 ^ 56 + b * 2 ^ 53 + c * 2 ^ 26 + d * 2 ^ 18 + e * 2 ^ 10 + f * 2 ^ 2)
      >>> 2 &&& 255 = f := by
    rw [Nat.shiftRight_eq_div_pow, show (255:ℕ) = 2 ^ 8 - 1 from rfl,
      Nat.and_pow_two_sub_one_eq_mod]
    norm_num
    omega
  have hres : (a * 2 ^ 56 + b * 2 ^ 53 + c * 2 ^ 26 + d * 2 ^ 18 + e * 2 ^ 10 + f * 2 ^ 2)
      &&& 3 = 0 := by
    rw [show (3:ℕ) = 2 ^ 2 - 1 from rfl, Nat.and_pow_two_sub_one_eq_mod]
    norm_num
    omega
  simp only [decode_node, hnid, hfid, hthr, hr, hl, hnt, hres]

/-- Decoding an encoded row recovers exactly the masked encoder fields. -/
lemma decode_node_to_binary (row : TreeRow) :
    decode_node (node_to_binary row) =
      { node_id := maskToNat row.node_id 8,
        feature_id := encFeatureId row &&& 7,
        threshold_raw := maskToNat (encThreshold row) 27,
        right_child := maskToNat row.right_child 8,
        left_child := maskToNat row.left_child 8,
        node_type_value := encNodeType row &&& 255,
        is_leaf := (encNodeType row &&& 255 == 1) ||
          (maskToNat row.left_child 8 == 0 && maskToNat row.right_child 8 == 0),
        prediction := if (encNodeType row &&& 255 == 1) ||
            (maskToNat row.left_child 8 == 0 && maskToNat row.right_child 8 == 0) then
            some (encNodeType row &&& 255) else none,
        reserved := 0 } := by
  have ha : maskToNat row.node_id 8 < 256 := by
    have h := maskToNat_lt row.node_id 8; norm_num at h; exact h
  have hb : encFeatureId row &&& 7 < 8 := by
    rw [show (7:ℕ) = 2 ^ 3 - 1 from rfl, Nat.and_pow_two_sub_one_eq_mod]
    norm_num
    omega
  have hc : maskToNat (encThreshold row) 27 < 134217728 := by
    have h := maskToNat_lt (encThreshold row) 27; norm_num at h; exact h
  have hd : maskToNat row.right_child 8 < 256 := by
    have h := maskToNat_lt row.right_child 8; norm_num at h; exact h
  have he : maskToNat row.left_child 8 < 256 := by
    have h := maskToNat_lt row.left_child 8; norm_num at h; exact h
  have hf : encNodeType row &&& 255 < 256 := by
    rw [show (255:ℕ) = 2 ^ 8 - 1 from rfl, Nat.and_pow_two_sub_one_eq_mod]
    norm_num
    omega
  unfold node_to_binary
  exact decode_node_fields _ _ _ _ _ _ _ ha hb hc hd he hf
    (pack_eq_sum _ _ _ _ _ _ ha hb hc hd he hf)

/-- The feature-map lookup always fits the 3-bit field. -/
lemma feature_map_lt (f : String) : feature_map f < 8 := by
  unfold feature_map
  split_ifs <;> norm_num

/-- C1 fails as stated: the row `(node_id 0, feature "-1", threshold 0,
children (1,2), prediction 0)` is a leaf by the source rule (sentinel
feature), yet its encoding decodes as internal (node_type 0, nonzero
children). -/
theorem claim_C1_counterexample :
    isLeafRow ⟨0, "-1", 0, 1, 2, 0⟩ ∧
      (decode_node (node_to_binary ⟨0, "-1", 0, 1, 2, 0⟩)).is_leaf = false :=
  ⟨Or.inl rfl, by decide⟩

/-- C1 amended: for synthetic rows in range, decoding the encoding
reproduces `node_id`, `left_child`, `right_child` exactly, and reproduces
the leaf classification provided the row is not a sentinel-feature row
with prediction 0 and a nonzero child. -/
theorem claim_C1_roundtrip (row : TreeRow)
    (hn0 : 0 ≤ row.node_id) (hn1 : row.node_id < 256)
    (hl0 : 0 ≤ row.left_child) (hl1 : row.left_child < 256)
    (hr0 : 0 ≤ row.right_child) (hr1 : row.right_child < 256)
    (hfeat : row.feature ∈ (["-1", "00", "01", "02", "03", "04", "05"] : List String))
    (hpred : row.prediction = 0 ∨ row.prediction = 1)
    (hsent : row.feature = "-1" → row.prediction = 0 →
      row.left_child = 0 ∧ row.right_child = 0) :
    ((decode_node (node_to_binary row)).node_id : ℤ) = row.node_id ∧
      ((decode_node (node_to_binary row)).left_child : ℤ) = row.left_child ∧
      ((decode_node (node_to_binary row)).right_child : ℤ) = row.right_child ∧
      ((decode_node (node_to_binary row)).is_leaf = true ↔ isLeafRow row) := by
  have h256 : (256:ℤ) ≤ 2 ^ 8 := by norm_num
  have hmn := maskToNat_eq_of_range 8 hn0 (lt_of_lt_of_le hn1 h256)
  have hml := maskToNat_eq_of_range 8 hl0 (lt_of_lt_of_le hl1 h256)
  have hmr := maskToNat_eq_of_range 8 hr0 (lt_of_lt_of_le hr1 h256)
  rw [decode_node_to_binary]
  dsimp only
  refine ⟨hmn, hml, hmr, ?_⟩
  by_cases hleaf : isLeafRow row
  · simp only [hleaf, iff_true]
    unfold encNodeType
    rw [if_pos hleaf]
    rcases hpred with hp | hp
    · have hchild : row.left_child = 0 ∧ row.right_child = 0 := by
        rcases hleaf with hs | hc
        · exact hsent hs hp
        · exact hc
      rw [hp, hchild.1, hchild.2]
      decide
    · rw [hp]
      simp
  · simp only [hleaf, iff_false]
    unfold encNodeType
    rw [if_neg hleaf]
    have hn : ¬(row.left_child = 0 ∧ row.right_child = 0) := fun hc => hleaf (Or.inr hc)
    intro habs
    simp only [Bool.or_eq_true, Bool.and_eq_true, beq_iff_eq] at habs
    rcases habs with h1 | ⟨h2, h3⟩
    · exact absurd h1 (by decide)
    · apply hn
      constructor
      · rw [h2] at hml
        exact_mod_cast hml.symm
      · rw [h3] at hmr
        exact_mod_cast hmr.symm

/-- Closed instance of amended C1: the in-range internal row
`(10, "02", 1/2, 3, 4, 0)` round-trips. -/
theorem claim_C1_witness :
    ((decode_node (node_to_binary ⟨10, "02", 1/2, 3, 4, 0⟩)).node_id : ℤ) = 10 ∧
      ((decode_node (node_to_binary ⟨10, "02", 1/2, 3, 4, 0⟩)).left_child : ℤ) = 3 ∧
      ((decode_node (node_to_binary ⟨10, "02", 1/2, 3, 4, 0⟩)).right_child : ℤ) = 4 ∧
      ((decode_node (node_to_binary ⟨10, "02", 1/2, 3, 4, 0⟩)).is_leaf = true ↔
        isLeafRow ⟨10, "02", 1/2, 3, 4, 0⟩) :=
  claim_C1_roundtrip _ (by norm_num) (by norm_num) (by norm_num) (by norm_num)
    (by norm_num) (by norm_num) (by decide) (Or.inl rfl) (by decide)

/-- C2 fails as stated: the row `(7, "-1", 0, children (3,0), prediction 0)`
has the sentinel feature, yet its encoding decodes as internal. -/
theorem claim_C2_counterexample :
    (⟨7, "-1", 0, 3, 0, 0⟩ : TreeRow).feature = "-1" ∧
      (decode_node (node_to_binary ⟨7, "-1", 0, 3, 0, 0⟩)).is_leaf = false :=
  ⟨rfl, by decide⟩

/-- C2 amended: a sentinel-feature row decodes as leaf provided its
prediction is 1 or both children are 0 modulo 256; and any row with
children `(0,0)` (in particular one with a real feature) decodes as leaf. -/
theorem claim_C2_leaf_decode (row : TreeRow) :
    (row.feature = "-1" →
      (row.prediction = 1 ∨ row.left_child % 256 = 0 ∧ row.right_child % 256 = 0) →
      (decode_node (node_to_binary row)).is_leaf = true) ∧
    (row.left_child = 0 → row.right_child = 0 →
      (decode_node (node_to_binary row)).is_leaf = true) := by
  rw [decode_node_to_binary]
  dsimp only
  constructor
  · intro hs hor
    have hleaf : isLeafRow row := Or.inl hs
    unfold encNodeType
    rw [if_pos hleaf]
    rcases hor with hp | ⟨hcl, hcr⟩
    · rw [hp]
      simp
    · have hmaskl : maskToNat row.left_child 8 = 0 := by
        unfold maskToNat
        rw [show ((2:ℤ) ^ 8) = 256 from by norm_num, hcl]
        rfl
      have hmaskr : maskToNat row.right_child 8 = 0 := by
        unfold maskToNat
        rw [show ((2:ℤ) ^ 8) = 256 from by norm_num, hcr]
        rfl
      rw [hmaskl, hmaskr]
      simp
  · intro hl hr
    have hleaf : isLeafRow row := Or.inr ⟨hl, hr⟩
    unfold encNodeType
    rw [if_pos hleaf, hl, hr]
    simp [maskToNat]

/-- Closed instance of amended C2: the sentinel row `(0, "-1", 0, (5,7), 1)`
and the zero-children row `(1, "03", 1/2, (0,0), 0)` both decode as leaf. -/
theorem claim_C2_witness :
    (decode_node (node_to_binary ⟨0, "-1", 0, 5, 7, 1⟩)).is_leaf = true ∧
      (decode_node (node_to_binary ⟨1, "03", 1/2, 0, 0, 0⟩)).is_leaf = true :=
  ⟨(claim_C2_leaf_decode _).1 rfl (Or.inl rfl),
    (claim_C2_leaf_decode _).2 rfl rfl⟩

/-- C6: for every row, the encoder packs a leaf as
`feature_id = 0, threshold_bits = 0, node_type = (1 iff prediction = 1)`,
and an internal node as `node_type = 0`, the `feature_map` id (unknown
names defaulting to 0), and the quantized threshold. -/
theorem claim_C6_encode_sets_fields (row : TreeRow) :
    (isLeafRow row →
      (decode_node (node_to_binary row)).feature_id = 0 ∧
        (decode_node (node_to_binary row)).threshold_raw = 0 ∧
        (decode_node (node_to_binary row)).node_type_value =
          (if row.prediction = 1 then 1 else 0)) ∧
    (¬ isLeafRow row →
      (decode_node (node_to_binary row)).node_type_value = 0 ∧
        (decode_node (node_to_binary row)).feature_id = feature_map row.feature ∧
        ((decode_node (node_to_binary row)).threshold_raw : ℤ) =
          float_to_fixed_point row.threshold (feature_map row.feature)) := by
  rw [decode_node_to_binary]
  dsimp only
  constructor
  · intro hleaf
    unfold encNodeType encFeatureId encThreshold
    rw [if_pos hleaf, if_pos hleaf, if_pos hleaf]
    refine ⟨rfl, rfl, ?_⟩
    split_ifs <;> rfl
  · intro hleaf
    unfold encNodeType encFeatureId encThreshold
    rw [if_neg hleaf, if_neg hleaf, if_neg hleaf]
    refine ⟨rfl, ?_, ?_⟩
    · rw [show (7:ℕ) = 2 ^ 3 - 1 from rfl, Nat.and_pow_two_sub_one_eq_mod]
      exact Nat.mod_eq_of_lt (feature_map_lt row.feature)
    · unfold encFeatureId
      rw [if_neg hleaf]
      exact maskToNat_eq_of_range 27
        (float_to_fixed_point_range row.threshold (feature_map row.feature)).1
        (float_to_fixed_point_range row.threshold (feature_map row.feature)).2

/-- Closed instance of C6: the leaf row `(3, "-1", 0, (0,0), 1)` and the
internal row `(4, "05", 1/2, (1,2), 0)`. -/
theorem claim_C6_witness :
    ((decode_node (node_to_binary ⟨3, "-1", 0, 0, 0, 1⟩)).feature_id = 0 ∧
      (decode_node (node_to_binary ⟨3, "-1", 0, 0, 0, 1⟩)).threshold_raw = 0 ∧
      (decode_node (node_to_binary ⟨3, "-1", 0, 0, 0, 1⟩)).node_type_value = 1) ∧
    ((decode_node (node_to_binary ⟨4, "05", 1/2, 1, 2, 0⟩)).node_type_value = 0 ∧
      (decode_node (node_to_binary ⟨4, "05", 1/2, 1, 2, 0⟩)).feature_id =
        feature_map "05" ∧
      ((decode_node (node_to_binary ⟨4, "05", 1/2, 1, 2, 0⟩)).threshold_raw : ℤ) =
        float_to_fixed_point (1/2) (feature_map "05")) :=
  ⟨(claim_C6_encode_sets_fields _).1 (by decide),
    (claim_C6_encode_sets_fields _).2 (by decide)⟩

/-- The `0x` removal leaves a string without `x` untouched. -/
lemma remove0x_of_no_x {l : List Char} (h : ∀ c ∈ l, c ≠ 'x') : remove0x l = l := by
  induction l with
  | nil => rfl
  | cons c rest ih =>
    cases rest with
    | nil => rfl
    | cons c2 rest2 =>
      unfold remove0x
      rw [if_neg (fun hc => h c2 (by simp) hc.2)]
      rw [ih (fun c hc => h c (List.mem_cons_of_mem _ hc))]

/-- The `0X` removal leaves a string without `X` untouched. -/
lemma remove0X_of_no_X {l : List Char} (h : ∀ c ∈ l, c ≠ 'X') : remove0X l = l := by
  induction l with
  | nil => rfl
  | cons c rest ih =>
    cases rest with
    | nil => rfl
    | cons c2 rest2 =>
      unfold remove0X
      rw [if_neg (fun hc => h c2 (by simp) hc.2)]
      rw [ih (fun c hc => h c (List.mem_cons_of_mem _ hc))]

lemma dropWhile_of_no_space {l : List Char} (h : ∀ c ∈ l, isPySpace c = false) :
    l.dropWhile isPySpace = l := by
  cases l with
  | nil => rfl
  | cons c r => simp [List.dropWhile_cons, h c (by simp)]

/-- Stripping leaves a whitespace-free string untouched. -/
lemma stripSpaces_of_no_space {l : List Char} (h : ∀ c ∈ l, isPySpace c = false) :
    stripSpaces l = l := by
  unfold stripSpaces
  rw [dropWhile_of_no_space h,
    dropWhile_of_no_space (fun c hc => h c (List.mem_reverse.1 hc)), List.reverse_reverse]

/-- A hex digit character is not whitespace. -/
lemma hexDigit_not_space {c : Char} (h : (hexDigit? c).isSome = true) :
    isPySpace c = false := by
  by_contra hsp
  simp only [Bool.not_eq_false, isPySpace, Bool.or_eq_true, beq_iff_eq] at hsp
  rcases hsp with ((((h1 | h1) | h1) | h1) | h1) | h1 <;>
    (rw [h1] at h; exact absurd h (by decide))

/-- A hex digit character is not one of `x`, `X`, `+`, `-`, `_`. -/
lemma hexDigit_ne {c : Char} (h : (hexDigit? c).isSome = true) :
    c ≠ 'x' ∧ c ≠ 'X' ∧ c ≠ '+' ∧ c ≠ '-' ∧ c ≠ '_' := by
  refine ⟨?_, ?_, ?_, ?_, ?_⟩ <;>
    (intro he; rw [he] at h; exact absurd h (by decide))

/-- On a pure digit run, the digit continuation folds up the digits. -/
lemma hexDigitsRest_all_digits {l : List Char}
    (h : ∀ c ∈ l, (hexDigit? c).isSome = true) (acc : ℕ) :
    hexDigitsRest acc l =
      some (l.foldl (fun a c => 16 * a + (hexDigit? c).getD 0) acc) := by
  induction l generalizing acc with
  | nil => rfl
  | cons c r ih =>
    have hc := h c (by simp)
    obtain ⟨v, hv⟩ := Option.isSome_iff_exists.1 hc
    unfold hexDigitsRest
    rw [if_neg (hexDigit_ne hc).2.2.2.2]
    simp only [hv]
    rw [ih (fun c hc2 => h c (List.mem_cons_of_mem _ hc2))]
    simp [hv]

/-- On a nonempty pure digit run, the digit parser returns the hex value. -/
lemma hexDigitsParse_all_digits {l : List Char}
    (h : ∀ c ∈ l, (hexDigit? c).isSome = true) (hne : l ≠ []) :
    hexDigitsParse l = some (hexVal l) := by
  cases l with
  | nil => exact absurd rfl hne
  | cons c r =>
    obtain ⟨v, hv⟩ := Option.isSome_iff_exists.1 (h c (by simp))
    unfold hexDigitsParse
    simp only [hv]
    rw [hexDigitsRest_all_digits (fun c hc => h c (List.mem_cons_of_mem _ hc))]
    simp [hexVal, hv]

/-- On a nonempty pure digit run, the body parser is the digit parser. -/
lemma pythonIntHexBody_all_digits {l : List Char}
    (h : ∀ c ∈ l, (hexDigit? c).isSome = true) :
    pythonIntHexBody l = hexDigitsParse l := by
  unfold pythonIntHexBody
  split
  · rename_i c rest
    have hc := h c (by simp)
    rw [if_neg (fun hor => hor.elim (hexDigit_ne hc).1 (hexDigit_ne hc).2.1)]
  · rfl

/-- Parsing a nonempty pure digit run with `int(s, 16)` returns the hex value. -/
lemma pythonIntHex_all_digits {l : List Char}
    (h : ∀ c ∈ l, (hexDigit? c).isSome = true) (hne : l ≠ []) :
    pythonIntHex l = some ((hexVal l : ℤ)) := by
  unfold pythonIntHex
  rw [stripSpaces_of_no_space (fun c hc => hexDigit_not_space (h c hc))]
  have hbody : (pythonIntHexBody l).map (fun n => (n : ℤ)) = some ((hexVal l : ℤ)) := by
    rw [pythonIntHexBody_all_digits h, hexDigitsParse_all_digits h hne]
    rfl
  split
  · exact absurd (h '+' (by simp)) (by decide)
  · exact absurd (h '-' (by simp)) (by decide)
  · exact hbody

/-- C7 fails as stated: on the input `"10x2"`, which is not valid
hexadecimal and carries no `0x` prefix, the strip-one-prefix description
fails, but the code's `replace('0x','')` deletes the interior `0x` and
successfully parses `"12"` as 18. -/
theorem claim_C7_counterexample :
    arb_id_of_text ("10x2".toList) = some 18 ∧ arbIdSpec ("10x2".toList) = none := by
  constructor <;> decide

/-- C7 amended: the textual arbitration-id parse removes every occurrence
of `0x` and then of `0X` anywhere in the string (not only a prefix), strips
surrounding whitespace, and hands the remainder to Python's base-16 parser,
failing exactly when that parser rejects the remainder; on a string that
really is a `0x` prefix followed by hex digits it returns the value of
those digits. -/
theorem claim_C7_arb_parse (s l : List Char) :
    (arb_id_of_text s = pythonIntHex (stripSpaces (remove0X (remove0x s))) ∧
      (arb_id_of_text s = none ↔
        pythonIntHex (stripSpaces (remove0X (remove0x s))) = none)) ∧
    ((∀ c ∈ l, (hexDigit? c).isSome = true) → l ≠ [] →
      arb_id_of_text ('0' :: 'x' :: l) = some ((hexVal l : ℤ))) := by
  refine ⟨⟨rfl, Iff.rfl⟩, fun h hne => ?_⟩
  unfold arb_id_of_text cleanArb
  have h0x : remove0x ('0' :: 'x' :: l) = l := by
    unfold remove0x
    rw [if_pos ⟨rfl, rfl⟩]
    exact remove0x_of_no_x (fun c hc => (hexDigit_ne (h c hc)).1)
  rw [h0x, remove0X_of_no_X (fun c hc => (hexDigit_ne (h c hc)).2.1),
    stripSpaces_of_no_space (fun c hc => hexDigit_not_space (h c hc))]
  exact pythonIntHex_all_digits h hne

/-- Closed instance of amended C7: `"0x1a"` parses to the value of the
digits `1a`. -/
theorem claim_C7_witness :
    arb_id_of_text ('0' :: 'x' :: ['1', 'a']) = some ((hexVal ['1', 'a'] : ℤ)) :=
  (claim_C7_arb_parse [] ['1', 'a']).2 (by decide) (by decide)

/-- C8: feeding timestamps 100.0, 99.0, 101.5 through one extractor session
yields time deltas 0.0 (first record), 0.0 (negative delta floored) and 1.0
(delta 2.5 capped), and after each record the stored last timestamp is that
record's timestamp. -/
theorem claim_C8_time_delta_clamping :
    convert_single (Sum.inr 0) [] (some 100) none =
      some ({ arb_id_dec := 0, data_length := 0, first_byte := 0, last_byte := 0,
              byte_sum := 0, time_delta := 0 }, some 100) ∧
    convert_single (Sum.inr 0) [] (some 99) (some 100) =
      some ({ arb_id_dec := 0, data_length := 0, first_byte := 0, last_byte := 0,
              byte_sum := 0, time_delta := 0 }, some 99) ∧
    convert_single (Sum.inr 0) [] (some (203/2)) (some 99) =
      some ({ arb_id_dec := 0, data_length := 0, first_byte := 0, last_byte := 0,
              byte_sum := 0, time_delta := 1 }, some (203/2)) := by
  refine ⟨by decide, ?_, ?_⟩ <;>
    norm_num [convert_single, dataFeatures, time_delta_step, pymax, pymin, cleanData,
      stripSpaces, removeSpaces, remove0x, remove0X, byteSumOf, pairChunks,
      List.mapM, List.mapM.loop]

/-- C9: a call without a timestamp yields `time_delta = 0` and leaves the
stored last timestamp untouched — the whole result only differs from a
fresh-state call by carrying the old state through. -/
theorem claim_C9_no_timestamp_frame (arb : String ⊕ ℤ) (data : List Char)
    (last : Option ℚ) :
    time_delta_step last none = (0, last) ∧
      convert_single arb data none last =
        (convert_single arb data none none).map (fun p => (p.1, last)) := by
  refine ⟨rfl, ?_⟩
  unfold convert_single
  rcases arb with s | n <;> dsimp only
  · cases arb_id_of_text s.toList with
    | none => rfl
    | some a =>
      cases dataFeatures data with
      | none => rfl
      | some v => obtain ⟨dl, fb, lb, bs⟩ := v; rfl
  · cases dataFeatures data with
    | none => rfl
    | some v => obtain ⟨dl, fb, lb, bs⟩ := v; rfl

/-- Any failing chunk makes the whole chunk traversal fail. -/
lemma mapM_none_of_mem {ch : List Char} {chs : List (List Char)}
    (hm : ch ∈ chs) (hn : pythonIntHex ch = none) :
    chs.mapM pythonIntHex = none := by
  induction chs with
  | nil => simp at hm
  | cons x xs ih =>
    rcases List.mem_cons.1 hm with rfl | hx
    · rw [List.mapM_cons, hn]
      rfl
    · rw [List.mapM_cons, ih hx]
      cases pythonIntHex x <;> rfl

/-- C10: when the cleaned data field has at least 2 characters and its
first two or last two characters fail to parse as hex, the whole extraction
raises (returns no feature record) — in contrast to `byte_sum`, where any
failing chunk merely resets the sum to 0. -/
theorem claim_C10_malformed_data :
    (∀ (arb : String ⊕ ℤ) (data : List Char) (ts last : Option ℚ),
      2 ≤ (cleanData data).length →
      (pythonIntHex ((cleanData data).take 2) = none ∨
        pythonIntHex ((cleanData data).drop ((cleanData data).length - 2)) = none) →
      convert_single arb data ts last = none) ∧
    (∀ (l ch : List Char), ch ∈ pairChunks l → pythonIntHex ch = none →
      byteSumOf l = 0) := by
  constructor
  · intro arb data ts last h2 hor
    have hd : dataFeatures data = none := by
      unfold dataFeatures
      dsimp only
      rw [if_pos h2, if_pos h2]
      rcases hor with hfb | hlb
      · rw [hfb]
      · cases hfb2 : pythonIntHex ((cleanData data).take 2) with
        | none => rfl
        | some fb => rw [hlb]
    unfold convert_single
    rcases arb with s | n <;> dsimp only
    · cases arb_id_of_text s.toList with
      | none => rfl
      | some a => rw [hd]
    · rw [hd]
  · intro l ch hm hn
    unfold byteSumOf
    rw [mapM_none_of_mem hm hn]

/-- Closed instance of C10: the data field `"zz11"` (malformed first byte)
makes the extraction fail. -/
theorem claim_C10_witness :
    convert_single (Sum.inr 0) ("zz11".toList) none none = none :=
  claim_C10_malformed_data.1 _ _ _ _ (by decide) (Or.inl (by decide))

end CanTree
